import Mathlib

/-!
Shallow embedding of the StackImpact Go agent core (`internal/agent.go`).

The Go code is embedded as pure Lean functions.  Mutable state (the `Agent`
struct and the process-wide `agentStarted` flag) is passed explicitly; calls
into collaborator components (reporters, message queue, config loader) and
lines printed by the debug-gated logger are recorded as an explicit event
trace.  Environment inputs (wall-clock time, the random draw used by the
identifier generator, the OS host-name query) are parameters.  Go `int`/`int64`
values are modelled as `Int` (no arithmetic in this file approaches the 64-bit
range, so overflow does not matter), and `rand.Intn(1000000000)` results as
`Nat`.
-/

namespace StackImpact

/-- Truncation to 32 bits, as performed implicitly by Go's `uint32` arithmetic
inside `crypto/sha1`. -/
def w32 (x : Nat) : Nat := x % 4294967296

/-- Left rotation on 32 bits (`bits.RotateLeft32` semantics used by SHA-1). -/
def rotl32 (x k : Nat) : Nat := w32 ((x <<< k) ||| (x >>> (32 - k)))

/-- Big-endian byte serialization of `x` into `k` bytes. -/
def natToBytesBE : Nat → Nat → List Nat
  | 0, _ => []
  | k + 1, x => ((x >>> (8 * k)) % 256) :: natToBytesBE k x

/-- SHA-1 message padding: `0x80`, zeros to 56 mod 64, 64-bit big-endian
bit length. -/
def sha1Pad (msg : List Nat) : List Nat :=
  msg ++ [128] ++ List.replicate ((119 - msg.length % 64) % 64) 0 ++
    natToBytesBE 8 (msg.length * 8)

/-- Split a byte list into 64-byte blocks. -/
def chunks64 (l : List Nat) : List (List Nat) :=
  if _h : l.length = 0 then [] else l.take 64 :: chunks64 (l.drop 64)
termination_by l.length
decreasing_by simp [List.length_drop]; omega

/-- Split a byte list into 4-byte groups. -/
def chunks4 (l : List Nat) : List (List Nat) :=
  if _h : l.length = 0 then [] else l.take 4 :: chunks4 (l.drop 4)
termination_by l.length
decreasing_by simp [List.length_drop]; omega

/-- Big-endian word from bytes. -/
def bytesToWord (bs : List Nat) : Nat := bs.foldl (fun acc b => acc * 256 + b) 0

/-- SHA-1 message-schedule extension: appends one word
`rotl1 (w[i-3] xor w[i-8] xor w[i-14] xor w[i-16])` per step. -/
def extendWords : Nat → List Nat → List Nat
  | 0, w => w
  | k + 1, w =>
    extendWords k (w ++ [rotl32 ((w.getD (w.length - 3) 0) ^^^ (w.getD (w.length - 8) 0) ^^^
      (w.getD (w.length - 14) 0) ^^^ (w.getD (w.length - 16) 0)) 1])

/-- SHA-1 round function `f`. -/
def sha1F (i b c d : Nat) : Nat :=
  if i < 20 then (b &&& c) ||| ((b ^^^ 4294967295) &&& d)
  else if i < 40 then b ^^^ c ^^^ d
  else if i < 60 then (b &&& c) ||| (b &&& d) ||| (c &&& d)
  else b ^^^ c ^^^ d

/-- SHA-1 round constants. -/
def sha1K (i : Nat) : Nat :=
  if i < 20 then 0x5A827999
  else if i < 40 then 0x6ED9EBA1
  else if i < 60 then 0x8F1BBCDC
  else 0xCA62C1D6

/-- Five-word SHA-1 state. -/
abbrev H5 := Nat × Nat × Nat × Nat × Nat

/-- One SHA-1 round: `iw` is the pair (round index, schedule word). -/
def sha1Round (st : H5) (iw : Nat × Nat) : H5 :=
  let t := w32 (rotl32 st.1 5 + sha1F iw.1 st.2.1 st.2.2.1 st.2.2.2.1 +
    st.2.2.2.2 + sha1K iw.1 + iw.2)
  (t, st.1, rotl32 st.2.1 30, st.2.2.1, st.2.2.2.1)

/-- Process one 64-byte block. -/
def processBlock (h : H5) (block : List Nat) : H5 :=
  let ws := extendWords 64 ((chunks4 block).map bytesToWord)
  let st := ws.enum.foldl sha1Round h
  (w32 (h.1 + st.1), w32 (h.2.1 + st.2.1), w32 (h.2.2.1 + st.2.2.1),
    w32 (h.2.2.2.1 + st.2.2.2.1), w32 (h.2.2.2.2 + st.2.2.2.2))

/-- SHA-1 initial state. -/
def sha1Init : H5 := (0x67452301, 0xEFCDAB89, 0x98BADCFE, 0x10325476, 0xC3D2E1F0)

/-- Big-endian serialization of one 32-bit word. -/
def wordToBytes (w : Nat) : List Nat :=
  [(w >>> 24) &&& 255, (w >>> 16) &&& 255, (w >>> 8) &&& 255, w &&& 255]

/-- Full SHA-1 digest: 20 bytes (`sha1.Sum` in Go). -/
def sha1Bytes (msg : List Nat) : List Nat :=
  let h := (chunks64 (sha1Pad msg)).foldl processBlock sha1Init
  wordToBytes h.1 ++ wordToBytes h.2.1 ++ wordToBytes h.2.2.1 ++
    wordToBytes h.2.2.2.1 ++ wordToBytes h.2.2.2.2

/-- The lowercase hexadecimal digit alphabet used by `hex.EncodeToString`. -/
def hexDigits : List Char := "0123456789abcdef".data

/-- Hex digit for a nibble. -/
def hexDigit (n : Nat) : Char := hexDigits.getD n '0'

/-- Embedding of `hex.EncodeToString`: each byte becomes two lowercase hex digits
(high nibble first). -/
def hexEncode (bs : List Nat) : String :=
  String.mk (bs.flatMap fun b => [hexDigit (b >>> 4), hexDigit (b &&& 15)])

/-- Go's `[]byte(s)` conversion: UTF-8 encoding of the string. -/
def charUTF8 (c : Char) : List Nat :=
  let n := c.toNat
  if n < 128 then [n]
  else if n < 2048 then [192 ||| (n >>> 6), 128 ||| (n &&& 63)]
  else if n < 65536 then
    [224 ||| (n >>> 12), 128 ||| ((n >>> 6) &&& 63), 128 ||| (n &&& 63)]
  else
    [240 ||| (n >>> 18), 128 ||| ((n >>> 12) &&& 63),
      128 ||| ((n >>> 6) &&& 63), 128 ||| (n &&& 63)]

/-- UTF-8 bytes of a string. -/
def strBytes (s : String) : List Nat := s.data.flatMap charUTF8

/-- Embedding of `sha1String` from `agent.go`: the lowercase-hex SHA-1 digest of `s`. -/
def sha1String (s : String) : String := hexEncode (sha1Bytes (strBytes s))

/-- The `AgentVersion` constant from `agent.go`. -/
def AgentVersion : String := "1.2.2"

/-- The `SAASDashboardAddress` constant from `agent.go`. -/
def SAASDashboardAddress : String := "https://agent-api.stackimpact.com"

/-- A Go `error` interface value: identified by its `Error()` text. -/
structure GoError where
  msg : String
deriving DecidableEq, Repr

/-- A representative fragment of Go's dynamically-typed interface
non-error values that can be passed to `RecordError`. -/
inductive GoValue where
  | goInt (n : Int)
  | goStr (s : String)
  | goBool (b : Bool)
deriving DecidableEq, Repr

/-- Go's default `%v` rendering of a `GoValue` (as used by `fmt.Errorf`). -/
def GoValue.render : GoValue → String
  | .goInt n => toString n
  | .goStr s => s
  | .goBool b => if b then "true" else "false"

/-- The dynamic `msg` interface argument of `RecordError`: either a
value already satisfying the `error` interface, or a non-error value. -/
inductive Payload where
  | errVal (e : GoError)
  | plain (v : GoValue)
deriving DecidableEq, Repr

/-- The eight collaborator components whose `start()` the agent invokes. -/
inductive Collab where
  | configLoader
  | messageQueue
  | processReporter
  | cpuReporter
  | allocationReporter
  | blockReporter
  | segmentReporter
  | errorReporter
deriving DecidableEq, Repr

/-- Observable effects of the agent core.  `logPrint` stands for one line
printed by `Agent.log` (the wall-clock timestamp prefix, an environment
input, is omitted); `errPrint` stands for the two lines printed by
`Agent.error`; `collabStart` for a call to a collaborator's `start()`;
`segDelegate` / `errDelegate` for the delegations performed by the
recording facade. -/
inductive Event where
  | collabStart (c : Collab)
  | segDelegate (path : List String) (duration : Int)
  | errDelegate (group : String) (e : GoError) (skipFrames : Int)
  | logPrint (msg : String)
  | errPrint (e : GoError)
deriving DecidableEq, Repr

/-- Environment inputs consumed by `Agent.Start`: the result of
`os.Hostname()` — a name (possibly empty) and an optional error. -/
structure StartEnv where
  hostName : String
  hostErr : Option GoError
deriving DecidableEq, Repr

/-- The `Agent` struct of `agent.go`.  The collaborator pointer fields and
`overheadLock` are references to external components whose behaviour is
visible only through the event trace, so they carry no data here; they are
set exactly once at construction and never read by the core logic itself. -/
structure Agent where
  nextId : Int
  runId : String
  runTs : Int
  DashboardAddress : String
  AgentKey : String
  AppName : String
  AppVersion : String
  AppEnvironment : String
  HostName : String
  Debug : Bool
  disableProfiling : Bool
deriving DecidableEq, Repr

/-- Embedding of `Agent.log`: prints one formatted line when `Debug` is set, nothing
otherwise.  The event carries the message (format string with values
rendered); the timestamp/version prefix is fixed text plus environment. -/
def Agent.log (a : Agent) (msg : String) : List Event :=
  if a.Debug then [Event.logPrint msg] else []

/-- Embedding of `Agent.error`: prints an error banner and the error when `Debug` is set,
nothing otherwise. -/
def Agent.errorOut (a : Agent) (e : GoError) : List Event :=
  if a.Debug then [Event.errPrint e] else []

/-- Embedding of `Agent.uuid`: increments `nextId`, concatenates the decimal renderings of
the current Unix time `ts`, the random draw `rnd` (Go:
`rand.Intn(1000000000)`), and the new `nextId`, and returns the lowercase-hex
SHA-1 of the concatenation. -/
def Agent.uuid (a : Agent) (ts : Int) (rnd : Nat) : Agent × String :=
  let a2 := { a with nextId := a.nextId + 1 }
  (a2, sha1String (toString ts ++ toString rnd ++ toString a2.nextId))

/-- Embedding of `NewAgent`: all fields at their neutral defaults, then `runId` assigned
from one `uuid` call.  `runTs`, and the time/random inputs of the `uuid`
call, are environment parameters. -/
def NewAgent (runTs ts : Int) (rnd : Nat) : Agent :=
  let a : Agent :=
    { nextId := 0, runId := "", runTs := runTs,
      DashboardAddress := SAASDashboardAddress, AgentKey := "", AppName := "",
      AppVersion := "", AppEnvironment := "", HostName := "", Debug := false,
      disableProfiling := false }
  let r := a.uuid ts rnd
  { r.1 with runId := r.2 }

/-- The warning logged by a refused second `Start`. -/
def alreadyStartedMsg : String :=
  "Agent configuration failed. Another agent has already been initialized."

/-- The events of the host-name resolution step: `a.error(err)` when
`os.Hostname` reported an error. -/
def Agent.hostEvents (a : Agent) (env : StartEnv) : List Event :=
  match env.hostErr with
  | some e => a.errorOut e
  | none => []

/-- Embedding of `Agent.Start`.  Here `started` is the process-wide `agentStarted` flag on
entry; the result is (agent after the call, flag after the call, events).
If the flag is set: log the warning and return.  Otherwise set the flag,
resolve the host name if unset (tolerating an `os.Hostname` failure), start
the eight collaborators in their fixed order, and log the confirmation. -/
def Agent.Start (a : Agent) (started : Bool) (env : StartEnv) :
    Agent × Bool × List Event :=
  if started then
    (a, started, a.log alreadyStartedMsg)
  else
    let a2 := if a.HostName = "" then { a with HostName := env.hostName } else a
    (a2, true,
      (if a.HostName = "" then a.hostEvents env else []) ++
      [Event.collabStart .configLoader, Event.collabStart .messageQueue,
        Event.collabStart .processReporter, Event.collabStart .cpuReporter,
        Event.collabStart .allocationReporter, Event.collabStart .blockReporter,
        Event.collabStart .segmentReporter, Event.collabStart .errorReporter] ++
      a2.log "Agent started.")

/-- Embedding of `Agent.RecordSegment`: no-op while the process-wide flag is unset,
otherwise delegates `(path, duration)` to the segment reporter. -/
def Agent.RecordSegment (a : Agent) (started : Bool) (path : List String)
    (duration : Int) : Agent × Bool × List Event :=
  if !started then (a, started, [])
  else (a, started, [Event.segDelegate path duration])

/-- The `switch msg.(type)` normalization in `RecordError`: an `error` value
passes through unchanged, any other value becomes
`fmt.Errorf("%v", v)`. -/
def normalizeError : Payload → GoError
  | .errVal e => e
  | .plain v => ⟨v.render⟩

/-- Embedding of `Agent.RecordError`: no-op while the process-wide flag is unset,
otherwise delegates `(group, normalized error, skipFrames + 1)` to the
error reporter. -/
def Agent.RecordError (a : Agent) (started : Bool) (group : String)
    (msg : Payload) (skipFrames : Int) : Agent × Bool × List Event :=
  if !started then (a, started, [])
  else (a, started, [Event.errDelegate group (normalizeError msg) (skipFrames + 1)])

/-- Embedding of `Agent.recoverAndLog`: the deferred recovery handler.  Its argument is
what Go's `recover()` returned: `some v` when the goroutine was panicking
with value `v`, `none` otherwise. -/
def Agent.recoverAndLog (a : Agent) (recovered : Option GoValue) : List Event :=
  match recovered with
  | some v => a.log ("Recovered from panic in agent: " ++ v.render)
  | none => []

/-- Outcome of running a body of guarded code: it either completes with a
list of events or panics with a Go value. -/
inductive GoResult where
  | ok (evs : List Event)
  | panicked (v : GoValue)
deriving DecidableEq, Repr

/-- Running a body with `defer a.recoverAndLog()` installed: a panic is
intercepted by `recover()` inside the deferred handler, so the combined
computation always returns normally — its type (`List Event`, not
`GoResult`) records that no panic propagates to the caller. -/
def runProtected (a : Agent) (body : GoResult) : List Event :=
  match body with
  | .ok evs => evs ++ a.recoverAndLog none
  | .panicked v => a.recoverAndLog (some v)

/-- A process: the process-wide `agentStarted` flag together with the
`Agent` instances that exist in the process (indexed by position). -/
structure Proc where
  started : Bool
  agents : List Agent
deriving DecidableEq, Repr

/-- Operations a process can perform on its agents.  Agent operations name
their target instance by index; `construct` appends a new instance. -/
inductive POp where
  | construct (runTs ts : Int) (rnd : Nat)
  | start (i : Nat) (env : StartEnv)
  | recordSegment (i : Nat) (path : List String) (duration : Int)
  | recordError (i : Nat) (group : String) (msg : Payload) (skipFrames : Int)
deriving DecidableEq, Repr

/-- One process step: dispatches the operation to the addressed agent,
threading the process-wide flag through it.  An out-of-range index is a
no-op (it denotes no call at all). -/
def Proc.step (p : Proc) (op : POp) : Proc × List Event :=
  match op with
  | .construct runTs ts rnd =>
    ({ p with agents := p.agents ++ [NewAgent runTs ts rnd] }, [])
  | .start i env =>
    match p.agents.get? i with
    | none => (p, [])
    | some a =>
      let r := a.Start p.started env
      (⟨r.2.1, p.agents.set i r.1⟩, r.2.2)
  | .recordSegment i path dur =>
    match p.agents.get? i with
    | none => (p, [])
    | some a =>
      let r := a.RecordSegment p.started path dur
      (⟨r.2.1, p.agents.set i r.1⟩, r.2.2)
  | .recordError i g msg sf =>
    match p.agents.get? i with
    | none => (p, [])
    | some a =>
      let r := a.RecordError p.started g msg sf
      (⟨r.2.1, p.agents.set i r.1⟩, r.2.2)

/-- Run a sequence of operations, concatenating the emitted events. -/
def Proc.run (p : Proc) : List POp → Proc × List Event
  | [] => (p, [])
  | op :: ops =>
    let r := p.step op
    let r2 := r.1.run ops
    (r2.1, r.2 ++ r2.2)

/-- The collaborator `start()` calls occurring in a trace, in order. -/
def collabSeq (evs : List Event) : List Collab :=
  evs.filterMap fun e =>
    match e with
    | .collabStart c => some c
    | _ => none

/-- The fixed collaborator startup order of `Agent.Start`. -/
def startOrder : List Collab :=
  [.configLoader, .messageQueue, .processReporter, .cpuReporter,
    .allocationReporter, .blockReporter, .segmentReporter, .errorReporter]

/-- The `skipFrames` arguments of the error-reporter delegations in a
trace, in order. -/
def errSkips (evs : List Event) : List Int :=
  evs.filterMap fun e =>
    match e with
    | .errDelegate _ _ k => some k
    | _ => none

/-- Sequential calls of the identifier generator: each element of `envs`
supplies the wall-clock second and random draw of one call; the agent's
`nextId` is threaded through. -/
def uuidSeq (a : Agent) : List (Int × Nat) → List String
  | [] => []
  | (ts, rnd) :: rest =>
    let r := a.uuid ts rnd
    r.2 :: uuidSeq r.1 rest

/-! ### Helper lemmas -/

theorem collabSeq_append (l l' : List Event) :
    collabSeq (l ++ l') = collabSeq l ++ collabSeq l' :=
  List.filterMap_append l l' _

theorem collabSeq_log (a : Agent) (m : String) : collabSeq (a.log m) = [] := by
  unfold Agent.log; split <;> rfl

theorem collabSeq_errorOut (a : Agent) (e : GoError) :
    collabSeq (a.errorOut e) = [] := by
  unfold Agent.errorOut; split <;> rfl

theorem collabSeq_hostEvents (a : Agent) (env : StartEnv) :
    collabSeq (a.hostEvents env) = [] := by
  unfold Agent.hostEvents
  cases env.hostErr with
  | none => rfl
  | some e => exact collabSeq_errorOut a e

theorem collabSeq_start_false (a : Agent) (env : StartEnv) :
    collabSeq (a.Start false env).2.2 = startOrder := by
  show collabSeq ((if a.HostName = "" then a.hostEvents env else []) ++ _ ++ _) = _
  rw [collabSeq_append, collabSeq_append, collabSeq_log]
  have h1 : collabSeq (if a.HostName = "" then a.hostEvents env else []) = [] := by
    split
    · exact collabSeq_hostEvents a env
    · rfl
  rw [h1]
  rfl

theorem Start_true (a : Agent) (env : StartEnv) :
    a.Start true env = (a, true, a.log alreadyStartedMsg) := rfl

theorem Start_false_flag (a : Agent) (env : StartEnv) :
    (a.Start false env).2.1 = true := rfl

theorem Start_agent_runId (a : Agent) (st : Bool) (env : StartEnv) :
    (a.Start st env).1.runId = a.runId := by
  cases st
  · show (if a.HostName = "" then { a with HostName := env.hostName } else a).runId = a.runId
    split <;> rfl
  · rfl

theorem RecordSegment_agent (a : Agent) (st : Bool) (path : List String)
    (dur : Int) : (a.RecordSegment st path dur).1 = a := by
  unfold Agent.RecordSegment; split <;> rfl

theorem RecordSegment_flag (a : Agent) (st : Bool) (path : List String)
    (dur : Int) : (a.RecordSegment st path dur).2.1 = st := by
  unfold Agent.RecordSegment; split <;> rfl

theorem RecordError_agent (a : Agent) (st : Bool) (g : String) (msg : Payload)
    (sf : Int) : (a.RecordError st g msg sf).1 = a := by
  unfold Agent.RecordError; split <;> rfl

theorem RecordError_flag (a : Agent) (st : Bool) (g : String) (msg : Payload)
    (sf : Int) : (a.RecordError st g msg sf).2.1 = st := by
  unfold Agent.RecordError; split <;> rfl

theorem RecordSegment_true (a : Agent) (path : List String) (dur : Int) :
    a.RecordSegment true path dur = (a, true, [Event.segDelegate path dur]) := rfl

theorem RecordSegment_false (a : Agent) (path : List String) (dur : Int) :
    a.RecordSegment false path dur = (a, false, []) := rfl

theorem RecordError_true (a : Agent) (g : String) (msg : Payload) (sf : Int) :
    a.RecordError true g msg sf =
      (a, true, [Event.errDelegate g (normalizeError msg) (sf + 1)]) := rfl

theorem RecordError_false (a : Agent) (g : String) (msg : Payload) (sf : Int) :
    a.RecordError false g msg sf = (a, false, []) := rfl

theorem run_collabSeq_started (ops : List POp) :
    ∀ ags : List Agent, collabSeq ((Proc.run ⟨true, ags⟩ ops).2) = [] := by
  induction ops with
  | nil => intro ags; rfl
  | cons op ops ih =>
    intro ags
    show collabSeq ((Proc.step ⟨true, ags⟩ op).2 ++
      ((Proc.step ⟨true, ags⟩ op).1.run ops).2) = []
    rw [collabSeq_append]
    cases op with
    | construct rts ts rnd =>
      simp only [Proc.step]
      rw [ih]
      rfl
    | start i env =>
      cases hg : ags.get? i with
      | none =>
        simp only [Proc.step, hg]
        rw [ih]
        rfl
      | some a =>
        simp only [Proc.step, hg, Start_true]
        rw [collabSeq_log, ih]
        rfl
    | recordSegment i path dur =>
      cases hg : ags.get? i with
      | none =>
        simp only [Proc.step, hg]
        rw [ih]
        rfl
      | some a =>
        simp only [Proc.step, hg, RecordSegment_true]
        rw [ih]
        rfl
    | recordError i g msg sf =>
      cases hg : ags.get? i with
      | none =>
        simp only [Proc.step, hg]
        rw [ih]
        rfl
      | some a =>
        simp only [Proc.step, hg, RecordError_true]
        rw [ih]
        rfl

theorem count_startOrder (c : Collab) : startOrder.count c = 1 := by
  cases c <;> rfl

theorem run_collab_count (ops : List POp) :
    ∀ (ags : List Agent) (c : Collab),
      (collabSeq ((Proc.run ⟨false, ags⟩ ops).2)).count c ≤ 1 := by
  induction ops with
  | nil => intro ags c; simp [Proc.run, collabSeq]
  | cons op ops ih =>
    intro ags c
    show (collabSeq ((Proc.step ⟨false, ags⟩ op).2 ++
      ((Proc.step ⟨false, ags⟩ op).1.run ops).2)).count c ≤ 1
    rw [collabSeq_append, List.count_append]
    cases op with
    | construct rts ts rnd =>
      simp only [Proc.step]
      simpa [collabSeq] using ih _ c
    | start i env =>
      cases hg : ags.get? i with
      | none =>
        simp only [Proc.step, hg]
        simpa [collabSeq] using ih _ c
      | some a =>
        simp only [Proc.step, hg]
        rw [collabSeq_start_false, count_startOrder]
        have h2 : collabSeq ((Proc.run ⟨(a.Start false env).2.1,
            ags.set i (a.Start false env).1⟩ ops)).2 = [] := by
          rw [Start_false_flag]
          exact run_collabSeq_started ops _
        rw [h2]
        simp
    | recordSegment i path dur =>
      cases hg : ags.get? i with
      | none =>
        simp only [Proc.step, hg]
        simpa [collabSeq] using ih _ c
      | some a =>
        simp only [Proc.step, hg, RecordSegment_false]
        simpa [collabSeq] using ih _ c
    | recordError i g msg sf =>
      cases hg : ags.get? i with
      | none =>
        simp only [Proc.step, hg]
        simpa [collabSeq] using ih _ c
      | some a =>
        simp only [Proc.step, hg, RecordError_false]
        simpa [collabSeq] using ih _ c

theorem get?_some_lt {α : Type} (l : List α) (j : Nat) (x : α)
    (h : l.get? j = some x) : j < l.length := by
  induction l generalizing j with
  | nil => simp [List.get?] at h
  | cons y t ih =>
    cases j with
    | zero => simp
    | succ n => simpa using ih n (by simpa [List.get?] using h)

theorem get?_set_self {α : Type} (l : List α) (i : Nat) (b : α)
    (h : i < l.length) : (l.set i b).get? i = some b := by
  induction l generalizing i with
  | nil => simp at h
  | cons y t ih =>
    cases i with
    | zero => rfl
    | succ n => simpa [List.set, List.get?] using ih n (by simpa using h)

theorem get?_set_ne {α : Type} (l : List α) (i j : Nat) (b : α) (h : i ≠ j) :
    (l.set i b).get? j = l.get? j := by
  induction l generalizing i j with
  | nil => rfl
  | cons y t ih =>
    cases i with
    | zero =>
      cases j with
      | zero => exact absurd rfl h
      | succ m => rfl
    | succ n =>
      cases j with
      | zero => rfl
      | succ m => simpa [List.set, List.get?] using ih n m (by omega)

theorem get?_append_left {α : Type} (l l' : List α) (j : Nat)
    (h : j < l.length) : (l ++ l').get? j = l.get? j := by
  induction l generalizing j with
  | nil => simp at h
  | cons y t ih =>
    cases j with
    | zero => rfl
    | succ n => simpa [List.get?] using ih n (by simpa using h)

/-! ### Claim theorems -/

/-- C1: when the process-wide started flag is already set, `Start` is a
no-op: the agent is returned unchanged (every field, `HostName` included),
the flag is unchanged, no collaborator `start()` is invoked, and the trace
is exactly one warning line when `Debug` is set and empty otherwise. -/
theorem start_noop_when_started (a : Agent) (env : StartEnv) :
    a.Start true env =
      (a, true, if a.Debug then [Event.logPrint alreadyStartedMsg] else []) := by
  simp [Agent.Start, Agent.log]

/-- C2: before `Start` (process-wide flag unset), `RecordSegment` and
`RecordError` return with no delegation event and no change to the agent
or the flag. -/
theorem record_before_start_noop (a : Agent) (path : List String)
    (dur : Int) (g : String) (msg : Payload) (sf : Int) :
    a.RecordSegment false path dur = (a, false, []) ∧
    a.RecordError false g msg sf = (a, false, []) :=
  ⟨rfl, rfl⟩

/-- C3: after `Start`, `RecordError` forwards an already-error payload
unchanged, and wraps a non-error payload into an error whose text is the
payload's default `%v` rendering (the integer 42 becomes text "42"); the
group string is forwarded unchanged in both cases. -/
theorem recordError_normalizes (a : Agent) (g : String) (sf : Int)
    (e : GoError) (v : GoValue) :
    a.RecordError true g (.errVal e) sf =
      (a, true, [Event.errDelegate g e (sf + 1)]) ∧
    a.RecordError true g (.plain v) sf =
      (a, true, [Event.errDelegate g ⟨v.render⟩ (sf + 1)]) ∧
    normalizeError (.plain (.goInt 42)) = ⟨"42"⟩ :=
  ⟨rfl, rfl, rfl⟩

/-- C4: for every `RecordError` call made with the started flag set, the
`skipFrames` value delegated to the error reporter is exactly the
caller-supplied value plus one. -/
theorem recordError_skipFrames (a : Agent) (g : String) (msg : Payload)
    (sf : Int) :
    errSkips (a.RecordError true g msg sf).2.2 = [sf + 1] := by
  simp [Agent.RecordError, errSkips]

/-- C6: the first `Start` keeps a non-empty `HostName` unchanged, sets an
empty one to the value obtained from the environment (empty string
tolerated), and in either case — even when the host-name query reported an
error — proceeds to set the flag and start all eight collaborators in
order. -/
theorem start_hostname_resolution (a : Agent) (env : StartEnv) :
    (a.Start false env).1.HostName =
      (if a.HostName = "" then env.hostName else a.HostName) ∧
    (a.Start false env).2.1 = true ∧
    collabSeq (a.Start false env).2.2 = startOrder := by
  refine ⟨?_, rfl, collabSeq_start_false a env⟩
  show (if a.HostName = "" then { a with HostName := env.hostName } else a).HostName = _
  split <;> rfl

/-- C9: a panic raised inside code guarded by `recoverAndLog` is intercepted
and suppressed: the guarded run returns an ordinary event list to its caller
(no panic propagates, by the very type of `runProtected`), and the fault is
converted to a single debug-gated log line. -/
theorem recover_suppresses (a : Agent) (v : GoValue) :
    runProtected a (.panicked v) =
      (if a.Debug then
        [Event.logPrint ("Recovered from panic in agent: " ++ v.render)]
      else []) := by
  simp [runProtected, Agent.recoverAndLog, Agent.log]

/-- C10: the gate read by `RecordSegment` / `RecordError` is the single
process-wide started flag.  In a process with two agents where only agent 1
started, agent 0's own `Start` is refused (only the warning is logged), yet
agent 0's `RecordSegment` and `RecordError` delegate to its collaborators
rather than being no-ops, and the process flag stays set. -/
theorem started_flag_is_global (a b : Agent) (env env2 : StartEnv)
    (path : List String) (dur : Int) (g : String) (msg : Payload) (sf : Int) :
    (Proc.run ⟨false, [a, b]⟩
      [POp.start 1 env, POp.start 0 env2, POp.recordSegment 0 path dur,
        POp.recordError 0 g msg sf]).2 =
      (b.Start false env).2.2 ++ a.log alreadyStartedMsg ++
        [Event.segDelegate path dur,
          Event.errDelegate g (normalizeError msg) (sf + 1)] ∧
    (Proc.run ⟨false, [a, b]⟩
      [POp.start 1 env, POp.start 0 env2, POp.recordSegment 0 path dur,
        POp.recordError 0 g msg sf]).1.started = true := by
  constructor
  · simp [Proc.run, Proc.step, Agent.RecordSegment, Agent.RecordError,
      Start_true, Start_false_flag, Agent.log]
  · rfl

/-- C7: a first successful `Start` (process flag still unset, valid target)
invokes each collaborator's `start()` exactly once, in the order
configuration loader, message queue, process reporter, CPU reporter,
allocation reporter, block reporter, segment reporter, error reporter; and
over any whole process run starting from the unstarted state, no
collaborator's `start()` occurs more than once in the trace. -/
theorem collaborators_start_once (as : List Agent) (i : Nat) (env : StartEnv)
    (a : Agent) (ops : List POp) (h : as.get? i = some a) :
    collabSeq ((Proc.step ⟨false, as⟩ (POp.start i env)).2) = startOrder ∧
    ∀ c, (collabSeq ((Proc.run ⟨false, as⟩ ops).2)).count c ≤ 1 := by
  constructor
  · simp only [Proc.step, h]
    exact collabSeq_start_false a env
  · intro c
    exact run_collab_count ops as c

theorem collaborators_start_once_witness :
    [NewAgent 0 0 0].get? 0 = some (NewAgent 0 0 0) ∧
    collabSeq ((Proc.step ⟨false, [NewAgent 0 0 0]⟩
      (POp.start 0 ⟨"", none⟩)).2) = startOrder :=
  ⟨rfl, (collaborators_start_once [NewAgent 0 0 0] 0 ⟨"", none⟩
    (NewAgent 0 0 0) [] rfl).1⟩

theorem step_runId (p : Proc) (op : POp) (j : Nat) (a0 : Agent)
    (h : p.agents.get? j = some a0) :
    ∃ a1, (p.step op).1.agents.get? j = some a1 ∧ a1.runId = a0.runId := by
  cases op with
  | construct rts ts rnd =>
    refine ⟨a0, ?_, rfl⟩
    show (p.agents ++ [NewAgent rts ts rnd]).get? j = some a0
    rw [get?_append_left _ _ j (get?_some_lt _ _ _ h)]
    exact h
  | start i env =>
    cases hg : p.agents.get? i with
    | none =>
      refine ⟨a0, ?_, rfl⟩
      simp only [Proc.step, hg]
      exact h
    | some b =>
      simp only [Proc.step, hg]
      by_cases hij : i = j
      · subst hij
        rw [hg] at h
        injection h with h
        subst h
        exact ⟨(b.Start p.started env).1,
          get?_set_self _ _ _ (get?_some_lt _ _ _ hg),
          Start_agent_runId b p.started env⟩
      · exact ⟨a0, by rw [get?_set_ne _ _ _ _ hij]; exact h, rfl⟩
  | recordSegment i path dur =>
    cases hg : p.agents.get? i with
    | none =>
      refine ⟨a0, ?_, rfl⟩
      simp only [Proc.step, hg]
      exact h
    | some b =>
      simp only [Proc.step, hg]
      by_cases hij : i = j
      · subst hij
        rw [hg] at h
        injection h with h
        subst h
        refine ⟨(b.RecordSegment p.started path dur).1,
          get?_set_self _ _ _ (get?_some_lt _ _ _ hg), ?_⟩
        rw [RecordSegment_agent]
      · exact ⟨a0, by rw [get?_set_ne _ _ _ _ hij]; exact h, rfl⟩
  | recordError i g msg sf =>
    cases hg : p.agents.get? i with
    | none =>
      refine ⟨a0, ?_, rfl⟩
      simp only [Proc.step, hg]
      exact h
    | some b =>
      simp only [Proc.step, hg]
      by_cases hij : i = j
      · subst hij
        rw [hg] at h
        injection h with h
        subst h
        refine ⟨(b.RecordError p.started g msg sf).1,
          get?_set_self _ _ _ (get?_some_lt _ _ _ hg), ?_⟩
        rw [RecordError_agent]
      · exact ⟨a0, by rw [get?_set_ne _ _ _ _ hij]; exact h, rfl⟩

theorem run_runId (ops : List POp) :
    ∀ (p : Proc) (j : Nat) (a0 : Agent), p.agents.get? j = some a0 →
      ∃ a1, ((p.run ops).1).agents.get? j = some a1 ∧ a1.runId = a0.runId := by
  induction ops with
  | nil => exact fun p j a0 h => ⟨a0, h, rfl⟩
  | cons op ops ih =>
    intro p j a0 h
    obtain ⟨a1, hg1, hr1⟩ := step_runId p op j a0 h
    obtain ⟨a2, hg2, hr2⟩ := ih (p.step op).1 j a1 hg1
    exact ⟨a2, hg2, hr2.trans hr1⟩

/-- C8: `runId` is assigned exactly once, at construction, to the value
produced by the identifier generator (the SHA-1 of time, random draw and
the counter value 1), and no later process operation (`Start`,
`RecordSegment`, `RecordError`, or the construction of further agents)
ever changes an existing agent's `runId`. -/
theorem runId_immutable (rts ts : Int) (rnd : Nat) (p : Proc)
    (ops : List POp) (i : Nat) (a a' : Agent)
    (h1 : p.agents.get? i = some a)
    (h2 : ((p.run ops).1).agents.get? i = some a') :
    (NewAgent rts ts rnd).runId =
      sha1String (toString ts ++ toString rnd ++ toString (1 : Int)) ∧
    a'.runId = a.runId := by
  refine ⟨rfl, ?_⟩
  obtain ⟨a1, hg, hr⟩ := run_runId ops p i a h1
  rw [hg] at h2
  injection h2 with h2
  subst h2
  exact hr

theorem getD_mem {α : Type} (l : List α) (n : Nat) (d : α) (hd : d ∈ l) :
    l.getD n d ∈ l := by
  cases h : l.get? n with
  | none => simpa [List.getD_eq_getElem?_getD, ← List.get?_eq_getElem?, h] using hd
  | some x =>
    have hx := List.get?_mem h
    simpa [List.getD_eq_getElem?_getD, ← List.get?_eq_getElem?, h] using hx

theorem hexDigit_mem (n : Nat) : hexDigit n ∈ hexDigits :=
  getD_mem hexDigits n '0' (by decide)

theorem hexDigit_contains (n : Nat) : hexDigits.contains (hexDigit n) = true := by
  simpa [List.contains_iff_exists_mem_beq, beq_iff_eq] using hexDigit_mem n

theorem hexEncode_data_length (bs : List Nat) :
    (bs.flatMap fun b => [hexDigit (b >>> 4), hexDigit (b &&& 15)]).length =
      2 * bs.length := by
  induction bs with
  | nil => rfl
  | cons b t ih =>
    simp only [List.flatMap_cons, List.length_append, ih, List.length_cons,
      List.length_nil]
    omega

theorem sha1Bytes_length (msg : List Nat) : (sha1Bytes msg).length = 20 := by
  simp [sha1Bytes, wordToBytes]

theorem sha1String_length (s : String) : (sha1String s).length = 40 := by
  show (hexEncode (sha1Bytes (strBytes s))).length = 40
  show ((sha1Bytes (strBytes s)).flatMap fun b =>
    [hexDigit (b >>> 4), hexDigit (b &&& 15)]).length = 40
  rw [hexEncode_data_length, sha1Bytes_length]

theorem hexEncode_all_hex (bs : List Nat) :
    ((hexEncode bs).data.all fun c => hexDigits.contains c) = true := by
  rw [List.all_eq_true]
  intro c hc
  rw [show (hexEncode bs).data =
    bs.flatMap fun b => [hexDigit (b >>> 4), hexDigit (b &&& 15)] from rfl,
    List.mem_flatMap] at hc
  obtain ⟨b, _, hb⟩ := hc
  simp only [List.mem_cons, List.not_mem_nil, or_false] at hb
  rcases hb with h | h <;> subst h <;> exact hexDigit_contains _

/-- The corrected distinctness statement's provable part: every identifier
the generator emits, over any sequence of calls with any time and random
inputs, is exactly 40 characters of lowercase hexadecimal. -/
theorem uuidSeq_output_hex (envs : List (Int × Nat)) :
    ∀ a : Agent,
      (uuidSeq a envs).all
        (fun s => s.length == 40 &&
          (s.data.all fun c => hexDigits.contains c)) = true := by
  induction envs with
  | nil => intro a; rfl
  | cons e rest ih =>
    intro a
    obtain ⟨ts, rnd⟩ := e
    rw [show uuidSeq a ((ts, rnd) :: rest) =
      (a.uuid ts rnd).2 :: uuidSeq (a.uuid ts rnd).1 rest from rfl,
      List.all_cons, ih]
    have h1 : ((a.uuid ts rnd).2).length = 40 := sha1String_length _
    have h2 : (((a.uuid ts rnd).2).data.all fun c => hexDigits.contains c)
        = true := hexEncode_all_hex _
    rw [h1, h2]
    rfl

/-- A concrete environment on which the identifier generator collides: an
agent fresh from construction, eleven sequential calls all within wall-clock
second 5, with random draws 11, 0, ..., 0, 1 (all within
`rand.Intn(1000000000)`'s range).  Call 1 hashes "5" ++ "11" ++ "2" and call
11 hashes "5" ++ "1" ++ "12" — the same string "5112" — so the two
identifiers are equal. -/
def cexEnvs : List (Int × Nat) :=
  [(5, 11), (5, 0), (5, 0), (5, 0), (5, 0), (5, 0), (5, 0), (5, 0), (5, 0),
    (5, 0), (5, 1)]

/-- C5 counterexample: eleven sequential identifier-generator calls on a
freshly constructed agent that yield only ten distinct strings — pairwise
distinctness fails. -/
theorem uuid_collision :
    ¬ (uuidSeq (NewAgent 0 0 0) cexEnvs).Nodup ∧
    (uuidSeq (NewAgent 0 0 0) cexEnvs).length = 11 := by
  refine ⟨?_, rfl⟩
  intro h
  have hlen : (uuidSeq (NewAgent 0 0 0) cexEnvs).length = 11 := rfl
  have heq : (uuidSeq (NewAgent 0 0 0) cexEnvs).get ⟨0, by rw [hlen]; omega⟩ =
      (uuidSeq (NewAgent 0 0 0) cexEnvs).get ⟨10, by rw [hlen]; omega⟩ := rfl
  have hfin := h.get_inj_iff.mp heq
  have : (0 : Nat) = 10 := congrArg Fin.val hfin
  omega

theorem runId_immutable_witness :
    (⟨false, [NewAgent 0 0 0]⟩ : Proc).agents.get? 0 = some (NewAgent 0 0 0) ∧
    ((Proc.run ⟨false, [NewAgent 0 0 0]⟩
      [POp.start 0 ⟨"", none⟩]).1).agents.get? 0 = some (NewAgent 0 0 0) ∧
    (NewAgent 0 0 0).runId = (NewAgent 0 0 0).runId :=
  ⟨rfl, rfl, (runId_immutable 0 0 0 ⟨false, [NewAgent 0 0 0]⟩
    [POp.start 0 ⟨"", none⟩] 0 (NewAgent 0 0 0) (NewAgent 0 0 0)
    rfl rfl).2⟩

end StackImpact
